import Mathlib

/-!
Verification of the `cloud-lrs` bootstrap module (`lib/lrs-core/api.js`):
the authorization middleware that resolves a user from a signed cookie
scoped to a (tenant-domain, course) pair, and the startup / route-discovery
sequencing of `init` and `initializeServer`.

JavaScript strings are modelled as Lean `String`s (sequences of Unicode
scalar values); the ECMAScript builtins `encodeURIComponent`,
`decodeURIComponent` and `String.prototype.split` used by the source are
modelled below on that representation.
-/

namespace CloudLRS

/-! ## JavaScript string builtins used by the source -/

/-- Model of `String.prototype.split` with a one-character separator:
`"a//b".split('/') = ["a", "", "b"]`, `"".split('/') = [""]`. -/
def splitOnChar (sep : Char) : List Char → List (List Char)
  | [] => [[]]
  | c :: cs =>
    if c = sep then [] :: splitOnChar sep cs
    else
      match splitOnChar sep cs with
      | [] => [[c]]
      | g :: gs => (c :: g) :: gs

/-- The split `s.split(sep)` on Lean strings. -/
def jsSplit (sep : Char) (s : String) : List String :=
  (splitOnChar sep s.data).map String.mk

/-- The UTF-8 bytes of one Unicode scalar value, as naturals. -/
def utf8Bytes (c : Char) : List Nat :=
  let n := c.toNat
  if n < 0x80 then [n]
  else if n < 0x800 then [0xC0 + n / 64, 0x80 + n % 64]
  else if n < 0x10000 then
    [0xE0 + n / 4096, 0x80 + (n / 64) % 64, 0x80 + n % 64]
  else
    [0xF0 + n / 262144, 0x80 + (n / 4096) % 64, 0x80 + (n / 64) % 64, 0x80 + n % 64]

/-- Strict UTF-8 decoder (rejects overlong forms, surrogates and values
above `0x10FFFF`).  `need` counts remaining continuation bytes, `acc` the
code point assembled so far, `lo` the smallest code point the current
sequence is allowed to produce. -/
def utf8Dec : (need : Nat) → (acc : Nat) → (lo : Nat) → List Nat → Option (List Char)
  | 0, _, _, [] => some []
  | 0, _, _, b :: bs =>
    if b < 0x80 then Option.map (fun cs => Char.ofNat b :: cs) (utf8Dec 0 0 0 bs)
    else if 0xC2 ≤ b ∧ b ≤ 0xDF then utf8Dec 1 (b % 0x20) 0x80 bs
    else if 0xE0 ≤ b ∧ b ≤ 0xEF then utf8Dec 2 (b % 0x10) 0x800 bs
    else if 0xF0 ≤ b ∧ b ≤ 0xF4 then utf8Dec 3 (b % 0x8) 0x10000 bs
    else none
  | _ + 1, _, _, [] => none
  | n + 1, acc, lo, b :: bs =>
    if 0x80 ≤ b ∧ b ≤ 0xBF then
      let acc2 := acc * 64 + b % 64
      match n with
      | 0 =>
        if lo ≤ acc2 ∧ acc2 ≤ 0x10FFFF ∧ ¬ (0xD800 ≤ acc2 ∧ acc2 ≤ 0xDFFF) then
          Option.map (fun cs => Char.ofNat acc2 :: cs) (utf8Dec 0 0 0 bs)
        else none
      | m + 1 => utf8Dec (m + 1) acc2 lo bs
    else none

/-- Value of a hexadecimal digit (either case), `none` otherwise; stated
on code points (48-57 are `0-9`, 65-70 are `A-F`, 97-102 are `a-f`). -/
def hexVal (c : Char) : Option Nat :=
  let n := c.toNat
  if 48 ≤ n ∧ n ≤ 57 then some (n - 48)
  else if 65 ≤ n ∧ n ≤ 70 then some (n - 55)
  else if 97 ≤ n ∧ n ≤ 102 then some (n - 87)
  else none

/-- Percent-decode a character sequence to a byte sequence: `%XX` becomes
the byte `XX`, any other character contributes its own UTF-8 bytes.
`none` on a malformed escape (ECMAScript throws `URIError`). -/
def pctBytes : List Char → Option (List Nat)
  | [] => some []
  | c :: cs =>
    if c = '%' then
      match cs with
      | h1 :: h2 :: cs2 =>
        match hexVal h1, hexVal h2 with
        | some a, some b => Option.map (fun t => (a * 16 + b) :: t) (pctBytes cs2)
        | _, _ => none
      | _ => none
    else Option.map (fun t => utf8Bytes c ++ t) (pctBytes cs)

/-- ECMAScript `decodeURIComponent`; `none` models a thrown `URIError`. -/
def decodeURIComponent (s : String) : Option String :=
  (pctBytes s.data).bind (fun bs => Option.map String.mk (utf8Dec 0 0 0 bs))

/-- The characters `encodeURIComponent` leaves unescaped:
`A-Z a-z 0-9 - _ . ! ~ * ' ( )`. -/
def uriUnreserved (c : Char) : Bool :=
  c.isAlpha || c.isDigit ||
    c = '-' || c = '_' || c = '.' || c = '!' || c = '~' || c = '*' ||
    c = Char.ofNat 39 || c = '(' || c = ')'

/-- Uppercase hexadecimal digit of `n % 16`. -/
def hexDigit (n : Nat) : Char :=
  if n % 16 < 10 then Char.ofNat ('0'.toNat + n % 16)
  else Char.ofNat ('A'.toNat + n % 16 - 10)

/-- ECMAScript `encodeURIComponent`: unreserved characters pass through,
every other character is replaced by `%XX` for each of its UTF-8 bytes. -/
def encodeURIComponent (s : String) : String :=
  String.mk (s.data.foldr
    (fun c acc =>
      if uriUnreserved c then c :: acc
      else (utf8Bytes c).foldr (fun b acc2 => '%' :: hexDigit (b / 16) :: hexDigit (b % 16) :: acc2) acc)
    [])

/-! ## Data model of a request -/

/-- The request context object; `initializeAuthorizationMiddleware` stores
the resolved user in its `user` field. -/
structure Ctx where
  user : Option String := none
  deriving DecidableEq, Repr

/-- The slice of an Express request the middleware reads and writes:
`req.ctx`, `req.baseUrl` and the signed-cookie map `req.signedCookies`
(an association list; a key that is absent models `undefined`). -/
structure Request where
  ctx : Option Ctx
  baseUrl : String
  signedCookies : List (String × String)
  deriving DecidableEq, Repr

/-- The signed-cookie lookup `req.signedCookies[name]`. -/
def Request.cookie (req : Request) (name : String) : Option String :=
  (req.signedCookies.find? (fun p => p.1 = name)).map Prod.snd

/-- JavaScript truthiness of `req.signedCookies[name]`: `undefined` and the
empty string are falsy, every other string is truthy. -/
def truthyCookie : Option String → Bool
  | none => false
  | some s => !(s = "")

/-- Evaluation of `decodeURIComponent(req.baseUrl.split('/')[i])`: an out-of-range index
yields `undefined`, which ECMAScript coerces to the string `"undefined"`
before decoding (and `decodeURIComponent "undefined" = "undefined"`). -/
def decodedSegment (baseUrl : String) (i : Nat) : Option String :=
  match (jsSplit '/' baseUrl).get? i with
  | none => some "undefined"
  | some s => decodeURIComponent s

/-- The composite cookie name the middleware computes:
`encodeURIComponent(apiDomain + '_' + courseId)`. -/
def compositeCookieName (apiDomain courseId : String) : String :=
  encodeURIComponent (apiDomain ++ "_" ++ courseId)

/-- The cookie key looked up for a given `baseUrl`, when both path
segments decode without a `URIError`. -/
def cookieKey (baseUrl : String) : Option String :=
  match decodedSegment baseUrl 2, decodedSegment baseUrl 3 with
  | some d, some c => some (compositeCookieName d c)
  | _, _ => none

/-- Outcome of running the middleware on one request: continue the chain
(`next()`), hand an error to the error stage (`next(err)`), write a
response, or throw (a `URIError` escaping from `decodeURIComponent`).
Each outcome carries the request as the middleware leaves it. -/
inductive MwResult where
  | next (req : Request)
  | nextError (err : String) (req : Request)
  | response (status : Nat) (body : String) (req : Request)
  | uriError (req : Request)
  deriving DecidableEq, Repr

/-- The middleware registered by `initializeAuthorizationMiddleware`,
parameterised by the collaborator `UsersAPI.getUser`.  The second
component of the result records the arguments of all `getUser` calls the
middleware performed. -/
def authMiddleware (getUser : String → Except String String) (req : Request) :
    MwResult × List String :=
  match req.ctx with
  | some _ => (.next req, [])
  | none =>
    match decodedSegment req.baseUrl 2, decodedSegment req.baseUrl 3 with
    | some apiDomain, some courseId =>
      let cookieName := compositeCookieName apiDomain courseId
      let userId := req.cookie cookieName
      if truthyCookie userId = false then
        (.response 401 "Incorrect cookie information present" req, [])
      else
        let uid := userId.getD ""
        match getUser uid with
        | .error e => (.nextError e req, [uid])
        | .ok user => (.next { req with ctx := some { user := some user } }, [uid])
    | _, _ => (.uriError req, [])

/-! ## Startup sequencing and route discovery -/

/-- Observable startup events, in the order `init` / `initializeServer`
produce them. `probe m` is the `fs.existsSync` check on module `m`'s
`rest.js`; `load m` is the `require` of that file. -/
inductive Event where
  | dbInitCalled
  | modulesInitCalled
  | setUpServer
  | routerCreated
  | authMiddlewareRegistered
  | apiRouterMounted
  | probe (m : String)
  | load (m : String)
  | finishedLog
  | callbackInvoked
  deriving DecidableEq, Repr

/-- Behaviour of a callback-taking collaborator (`DB.init`,
`Modules.init`): it either invokes its continuation — possibly reporting
an error value to it — or never invokes it. -/
inductive CbBehavior where
  | invoke (err : Option String)
  | never
  deriving DecidableEq, Repr

/-- The `_.each` loop of `initializeServer`: probe each module of
`Modules.getAvailableModules()` in list order and `require` its `rest.js`
exactly when `fs.existsSync` says the file exists. -/
def discoveryTrace (mods : List String) (restExists : String → Bool) : List Event :=
  mods.flatMap (fun m => Event.probe m :: if restExists m then [Event.load m] else [])

/-- Event trace of `initializeServer`: set up the Express server, create
the `/api` router, register the authorization middleware on it, mount the
router, run route discovery, log completion. -/
def initializeServerTrace (mods : List String) (restExists : String → Bool) : List Event :=
  [Event.setUpServer, Event.routerCreated, Event.authMiddlewareRegistered,
   Event.apiRouterMounted] ++ discoveryTrace mods restExists ++ [Event.finishedLog]

/-- Event trace of `init`: call `DB.init`; its continuation (which ignores
any error argument) calls `Modules.init`; that continuation (likewise
ignoring its argument) runs `initializeServer()` and then `callback()`. -/
def initTrace (db modules : CbBehavior) (mods : List String)
    (restExists : String → Bool) : List Event :=
  Event.dbInitCalled ::
    match db with
    | .never => []
    | .invoke _ =>
      Event.modulesInitCalled ::
        match modules with
        | .never => []
        | .invoke _ =>
          initializeServerTrace mods restExists ++ [Event.callbackInvoked]

/-- The module a `probe` event concerns, if any. -/
def probeOf : Event → Option String
  | .probe m => some m
  | _ => none

/-- The module a `load` event concerns, if any. -/
def loadOf : Event → Option String
  | .load m => some m
  | _ => none

/-! ## Theorems: the authorization middleware -/

/-- Claim C1: a request without a pre-existing context whose computed
composite cookie key has no signed cookie is answered with status 401 and
exactly the body `"Incorrect cookie information present"`, and the next
middleware is not invoked (no `getUser` call is made either). -/
theorem auth_missing_cookie_401 (getUser : String → Except String String)
    (req : Request) (d c : String)
    (hctx : req.ctx = none)
    (hd : decodedSegment req.baseUrl 2 = some d)
    (hc : decodedSegment req.baseUrl 3 = some c)
    (hmiss : req.cookie (compositeCookieName d c) = none) :
    authMiddleware getUser req
      = (.response 401 "Incorrect cookie information present" req, []) := by
  simp [authMiddleware, hctx, hd, hc, hmiss, truthyCookie]

/-- Concrete run of `auth_missing_cookie_401`: a well-formed path with an
empty cookie jar. -/
theorem auth_missing_cookie_401_witness :
    authMiddleware (fun _ => .ok "u")
        { ctx := none, baseUrl := "/api/ucberkeley.canvas.com/21312", signedCookies := [] }
      = (.response 401 "Incorrect cookie information present"
          { ctx := none, baseUrl := "/api/ucberkeley.canvas.com/21312", signedCookies := [] },
         []) :=
  auth_missing_cookie_401 (fun _ => .ok "u")
    { ctx := none, baseUrl := "/api/ucberkeley.canvas.com/21312", signedCookies := [] }
    "ucberkeley.canvas.com" "21312" rfl (by decide) (by decide) (by decide)

/-- Claim C2: when no context pre-exists, the composite cookie is present
with a truthy value, and `getUser` resolves it without error, the
middleware stores exactly the resolved user in the request context's
`user` field and continues the chain via `next()` with no error. -/
theorem auth_success_attaches_user (getUser : String → Except String String)
    (req : Request) (d c uid user : String)
    (hctx : req.ctx = none)
    (hd : decodedSegment req.baseUrl 2 = some d)
    (hc : decodedSegment req.baseUrl 3 = some c)
    (hcook : req.cookie (compositeCookieName d c) = some uid)
    (huid : uid ≠ "")
    (hget : getUser uid = .ok user) :
    authMiddleware getUser req
      = (.next { req with ctx := some { user := some user } }, [uid]) := by
  simp [authMiddleware, hctx, hd, hc, hcook, truthyCookie, huid, hget]

/-- Concrete run of `auth_success_attaches_user`. -/
theorem auth_success_attaches_user_witness :
    authMiddleware (fun u => .ok ("resolved-" ++ u))
        { ctx := none, baseUrl := "/api/ucberkeley.canvas.com/21312",
          signedCookies := [("ucberkeley.canvas.com_21312", "2468")] }
      = (.next { ctx := some { user := some "resolved-2468" },
                 baseUrl := "/api/ucberkeley.canvas.com/21312",
                 signedCookies := [("ucberkeley.canvas.com_21312", "2468")] },
         ["2468"]) :=
  auth_success_attaches_user (fun u => .ok ("resolved-" ++ u))
    { ctx := none, baseUrl := "/api/ucberkeley.canvas.com/21312",
      signedCookies := [("ucberkeley.canvas.com_21312", "2468")] }
    "ucberkeley.canvas.com" "21312" "2468" "resolved-2468"
    rfl (by decide) (by decide) (by decide) (by decide) rfl

/-- Claim C3: when the composite cookie is present (truthy) but `getUser`
reports an error, the middleware hands exactly that error to the
error-handling stage, writes no response, and leaves the request — in
particular its context — unchanged. -/
theorem auth_lookup_error_propagates (getUser : String → Except String String)
    (req : Request) (d c uid e : String)
    (hctx : req.ctx = none)
    (hd : decodedSegment req.baseUrl 2 = some d)
    (hc : decodedSegment req.baseUrl 3 = some c)
    (hcook : req.cookie (compositeCookieName d c) = some uid)
    (huid : uid ≠ "")
    (hget : getUser uid = .error e) :
    authMiddleware getUser req = (.nextError e req, [uid]) := by
  simp [authMiddleware, hctx, hd, hc, hcook, truthyCookie, huid, hget]

/-- Concrete run of `auth_lookup_error_propagates`. -/
theorem auth_lookup_error_propagates_witness :
    authMiddleware (fun _ => .error "db unavailable")
        { ctx := none, baseUrl := "/api/ucberkeley.canvas.com/77",
          signedCookies := [("ucberkeley.canvas.com_77", "13")] }
      = (.nextError "db unavailable"
          { ctx := none, baseUrl := "/api/ucberkeley.canvas.com/77",
            signedCookies := [("ucberkeley.canvas.com_77", "13")] },
         ["13"]) :=
  auth_lookup_error_propagates (fun _ => .error "db unavailable")
    { ctx := none, baseUrl := "/api/ucberkeley.canvas.com/77",
      signedCookies := [("ucberkeley.canvas.com_77", "13")] }
    "ucberkeley.canvas.com" "77" "13" "db unavailable"
    rfl (by decide) (by decide) (by decide) (by decide) rfl

/-- Claim C5: a request that already carries a context object passes
straight through: the middleware calls `next()` with the request entirely
unchanged and performs no `getUser` call; since this holds for every
signed-cookie set and every resolver, neither is consulted. -/
theorem auth_preexisting_ctx_noop (getUser : String → Except String String)
    (req : Request) (c : Ctx) (hctx : req.ctx = some c) :
    authMiddleware getUser req = (.next req, []) := by
  simp [authMiddleware, hctx]

/-- Concrete run of `auth_preexisting_ctx_noop`. -/
theorem auth_preexisting_ctx_noop_witness :
    authMiddleware (fun _ => .error "never consulted")
        { ctx := some { user := some "prior" }, baseUrl := "/api/x/y",
          signedCookies := [("x_y", "9")] }
      = (.next { ctx := some { user := some "prior" }, baseUrl := "/api/x/y",
                 signedCookies := [("x_y", "9")] },
         []) :=
  auth_preexisting_ctx_noop (fun _ => .error "never consulted")
    { ctx := some { user := some "prior" }, baseUrl := "/api/x/y",
      signedCookies := [("x_y", "9")] }
    { user := some "prior" } rfl

/-- Claim C10: a signed cookie present under the composite key with the
falsy value `""` is treated exactly like an absent cookie: 401 with the
fixed body, and the resolver is never called. -/
theorem auth_empty_cookie_401 (getUser : String → Except String String)
    (req : Request) (d c : String)
    (hctx : req.ctx = none)
    (hd : decodedSegment req.baseUrl 2 = some d)
    (hc : decodedSegment req.baseUrl 3 = some c)
    (hcook : req.cookie (compositeCookieName d c) = some "") :
    authMiddleware getUser req
      = (.response 401 "Incorrect cookie information present" req, []) := by
  simp [authMiddleware, hctx, hd, hc, hcook, truthyCookie]

/-- Concrete run of `auth_empty_cookie_401`. -/
theorem auth_empty_cookie_401_witness :
    authMiddleware (fun _ => .ok "never")
        { ctx := none, baseUrl := "/api/ucberkeley.canvas.com/5",
          signedCookies := [("ucberkeley.canvas.com_5", "")] }
      = (.response 401 "Incorrect cookie information present"
          { ctx := none, baseUrl := "/api/ucberkeley.canvas.com/5",
            signedCookies := [("ucberkeley.canvas.com_5", "")] },
         []) :=
  auth_empty_cookie_401 (fun _ => .ok "never")
    { ctx := none, baseUrl := "/api/ucberkeley.canvas.com/5",
      signedCookies := [("ucberkeley.canvas.com_5", "")] }
    "ucberkeley.canvas.com" "5" rfl (by decide) (by decide) (by decide)

/-- Claim C9: the composite cookie name is not injective in
`(tenantDomain, courseId)`: `encodeURIComponent` leaves `_` unescaped, so
the distinct pairs `("a_b", "c")` and `("a", "b_c")` produce the same
cookie name, and one signed cookie under that name authorizes requests
for both pairs (same resolved user, chain continued, in both runs). -/
theorem cookieName_not_injective :
    compositeCookieName "a_b" "c" = compositeCookieName "a" "b_c"
  ∧ (("a_b", "c") : String × String) ≠ ("a", "b_c")
  ∧ authMiddleware (fun u => .ok u)
      { ctx := none, baseUrl := "/api/a_b/c", signedCookies := [("a_b_c", "42")] }
      = (.next { ctx := some { user := some "42" }, baseUrl := "/api/a_b/c",
                 signedCookies := [("a_b_c", "42")] }, ["42"])
  ∧ authMiddleware (fun u => .ok u)
      { ctx := none, baseUrl := "/api/a/b_c", signedCookies := [("a_b_c", "42")] }
      = (.next { ctx := some { user := some "42" }, baseUrl := "/api/a/b_c",
                 signedCookies := [("a_b_c", "42")] }, ["42"]) := by
  refine ⟨by decide, by decide, by decide, by decide⟩

/-! ## Theorems: startup sequencing and route discovery -/

/-- Claim C6 is false as stated: the continuations in `init` ignore any
error argument, so when `DB.init` reports an error to its callback the
later stages (module initialization, server setup, route discovery, the
final callback) all still run. -/
theorem init_error_ignored_counterexample :
    Event.modulesInitCalled ∈
      initTrace (.invoke (some "database error")) (.invoke none) ["statements"] (fun _ => false)
  ∧ Event.setUpServer ∈
      initTrace (.invoke (some "database error")) (.invoke none) ["statements"] (fun _ => false)
  ∧ Event.probe "statements" ∈
      initTrace (.invoke (some "database error")) (.invoke none) ["statements"] (fun _ => false)
  ∧ Event.callbackInvoked ∈
      initTrace (.invoke (some "database error")) (.invoke none) ["statements"] (fun _ => false) := by
  refine ⟨by decide, by decide, by decide, by decide⟩

/-- Claim C6 (amended): an earlier startup stage prevents later stages
only by never invoking its continuation — if `DB.init` never calls back,
nothing after the database stage runs, and if `Modules.init` never calls
back, nothing after module initialization runs; an error value reported
to a callback is ignored and later stages run regardless. -/
theorem init_stage_gating (b : CbBehavior) (e : Option String)
    (mods : List String) (restExists : String → Bool) :
    initTrace .never b mods restExists = [Event.dbInitCalled]
  ∧ initTrace (.invoke e) .never mods restExists
      = [Event.dbInitCalled, Event.modulesInitCalled]
  ∧ Event.callbackInvoked ∈ initTrace (.invoke e) (.invoke none) mods restExists := by
  refine ⟨rfl, rfl, ?_⟩
  simp [initTrace, initializeServerTrace]

/-- Claim C7: when every stage calls back, startup runs in strict order —
database init, then module init, then server setup (creating the router,
registering the authorization middleware on it and mounting it), then
route discovery, and the `init` callback is invoked last of all, after
server setup. -/
theorem init_strict_order (e1 e2 : Option String)
    (mods : List String) (restExists : String → Bool) :
    initTrace (.invoke e1) (.invoke e2) mods restExists
      = [Event.dbInitCalled, Event.modulesInitCalled, Event.setUpServer,
         Event.routerCreated, Event.authMiddlewareRegistered, Event.apiRouterMounted]
        ++ discoveryTrace mods restExists
        ++ [Event.finishedLog, Event.callbackInvoked] := by
  simp [initTrace, initializeServerTrace]

/-- Probes of the discovery loop, in order. -/
theorem discoveryTrace_probes (mods : List String) (restExists : String → Bool) :
    (discoveryTrace mods restExists).filterMap probeOf = mods := by
  induction mods with
  | nil => rfl
  | cons m ms ih =>
    by_cases h : restExists m
    · simp [discoveryTrace, probeOf, h, List.filterMap_cons] at ih ⊢
      exact ih
    · simp [discoveryTrace, probeOf, h, List.filterMap_cons] at ih ⊢
      exact ih

/-- Loads of the discovery loop: exactly the modules whose `rest.js`
exists, in module-list order. -/
theorem discoveryTrace_loads (mods : List String) (restExists : String → Bool) :
    (discoveryTrace mods restExists).filterMap loadOf = mods.filter restExists := by
  induction mods with
  | nil => rfl
  | cons m ms ih =>
    by_cases h : restExists m
    · simp [discoveryTrace, loadOf, h, List.filterMap_cons] at ih ⊢
      exact ih
    · simp [discoveryTrace, loadOf, h, List.filterMap_cons] at ih ⊢
      exact ih

/-- Claim C8: route discovery in `initializeServer` probes each module of
the module list exactly once, in the list's order, and loads exactly
those modules whose `rest.js` exists (still in list order); a module
whose file is missing contributes no load event and no failure — the
trace simply continues. -/
theorem route_discovery_contract (mods : List String) (restExists : String → Bool) :
    (initializeServerTrace mods restExists).filterMap probeOf = mods
  ∧ (initializeServerTrace mods restExists).filterMap loadOf = mods.filter restExists := by
  constructor
  · simp [initializeServerTrace, List.filterMap_append, probeOf,
      discoveryTrace_probes]
  · simp [initializeServerTrace, List.filterMap_append, loadOf,
      discoveryTrace_loads]

/-! ## Theorems: the composite cookie key -/

/-- Splitting `xs ++ rest` when `xs` is separator-free prepends `xs` to
the first group of the split of `rest`. -/
theorem splitOnChar_append (sep : Char) (xs rest : List Char) (h : sep ∉ xs)
    (g : List Char) (gs : List (List Char)) (hg : splitOnChar sep rest = g :: gs) :
    splitOnChar sep (xs ++ rest) = (xs ++ g) :: gs := by
  induction xs with
  | nil => simpa using hg
  | cons x xs ih =>
    simp only [List.mem_cons, not_or] at h
    obtain ⟨h1, h2⟩ := h
    have ih2 := ih h2
    simp only [List.cons_append, splitOnChar]
    rw [if_neg (fun he => h1 he.symm), List.append_eq, ih2]

/-- A leading separator contributes an empty first group. -/
theorem splitOnChar_sep_cons (sep : Char) (rest : List Char) :
    splitOnChar sep (sep :: rest) = [] :: splitOnChar sep rest := by
  simp [splitOnChar]

/-- A separator-free list splits into the single group it is. -/
theorem splitOnChar_no_sep (sep : Char) (xs : List Char) (h : sep ∉ xs) :
    splitOnChar sep xs = [xs] := by
  have := splitOnChar_append sep xs [] h [] [] rfl
  simpa using this

/-- On a path of the form `/api/{d}/{c}` or `/api/{d}/{c}/...`, segments
2 and 3 of `split('/')` are `d` and `c`. -/
theorem jsSplit_api_path (d c rest : String)
    (hd : '/' ∉ d.data) (hc : '/' ∉ c.data)
    (hrest : rest = "" ∨ (∃ r, rest.data = '/' :: r)) :
    ((jsSplit '/' ("/api/" ++ d ++ "/" ++ c ++ rest)).get? 2 = some d)
  ∧ ((jsSplit '/' ("/api/" ++ d ++ "/" ++ c ++ rest)).get? 3 = some c) := by
  have hdata : ("/api/" ++ d ++ "/" ++ c ++ rest).data
      = '/' :: 'a' :: 'p' :: 'i' :: '/' :: (d.data ++ '/' :: (c.data ++ rest.data)) := by
    simp [String.data_append]
  obtain ⟨gs, hv⟩ : ∃ gs, splitOnChar '/' (c.data ++ rest.data) = c.data :: gs := by
    rcases hrest with h0 | ⟨r, hr⟩
    · refine ⟨[], ?_⟩
      subst h0
      simpa using splitOnChar_no_sep '/' c.data hc
    · refine ⟨splitOnChar '/' r, ?_⟩
      rw [hr]
      have := splitOnChar_append '/' c.data ('/' :: r) hc [] (splitOnChar '/' r)
        (splitOnChar_sep_cons '/' r)
      simpa using this
  have hu : splitOnChar '/' (d.data ++ '/' :: (c.data ++ rest.data))
      = d.data :: c.data :: gs := by
    have := splitOnChar_append '/' d.data ('/' :: (c.data ++ rest.data)) hd []
      (splitOnChar '/' (c.data ++ rest.data))
      (splitOnChar_sep_cons '/' (c.data ++ rest.data))
    rw [hv] at this
    simpa using this
  have happ : splitOnChar '/' ('a' :: 'p' :: 'i' :: '/' :: (d.data ++ '/' :: (c.data ++ rest.data)))
      = ['a', 'p', 'i'] :: d.data :: c.data :: gs := by
    have := splitOnChar_append '/' ['a', 'p', 'i']
      ('/' :: (d.data ++ '/' :: (c.data ++ rest.data))) (by decide) []
      (splitOnChar '/' (d.data ++ '/' :: (c.data ++ rest.data)))
      (splitOnChar_sep_cons '/' _)
    rw [hu] at this
    simpa using this
  have hjs : jsSplit '/' ("/api/" ++ d ++ "/" ++ c ++ rest)
      = "" :: "api" :: d :: c :: gs.map String.mk := by
    unfold jsSplit
    rw [hdata, splitOnChar_sep_cons, happ]
    rfl
  rw [hjs]
  exact ⟨rfl, rfl⟩

/-- Claim C4: on a request path `/api/{d}/{c}` or `/api/{d}/{c}/...`
whose segments decode without error, the cookie key the middleware looks
up is `encodeURIComponent (decodeURIComponent d ++ "_" ++ decodeURIComponent c)`. -/
theorem cookieKey_matches_encoding (d c rest dd cc : String)
    (hd : '/' ∉ d.data) (hc : '/' ∉ c.data)
    (hrest : rest = "" ∨ (∃ r, rest.data = '/' :: r))
    (hdd : decodeURIComponent d = some dd)
    (hcc : decodeURIComponent c = some cc) :
    cookieKey ("/api/" ++ d ++ "/" ++ c ++ rest)
      = some (encodeURIComponent (dd ++ "_" ++ cc)) := by
  obtain ⟨h2, h3⟩ := jsSplit_api_path d c rest hd hc hrest
  unfold cookieKey decodedSegment
  rw [h2, h3]
  simp [hdd, hcc, compositeCookieName]

/-- Concrete run of `cookieKey_matches_encoding`: the key for domain
`ucberkeley.canvas.com` and course `21312` is the URL-encoding of
`"ucberkeley.canvas.com_21312"` (which, every character being unreserved,
is that string itself). -/
theorem cookieKey_matches_encoding_witness :
    cookieKey "/api/ucberkeley.canvas.com/21312"
      = some (encodeURIComponent "ucberkeley.canvas.com_21312")
  ∧ encodeURIComponent "ucberkeley.canvas.com_21312" = "ucberkeley.canvas.com_21312" := by
  have h := cookieKey_matches_encoding "ucberkeley.canvas.com" "21312" ""
    "ucberkeley.canvas.com" "21312" (by decide) (by decide) (Or.inl rfl)
    (by decide) (by decide)
  have e1 : ("/api/" ++ "ucberkeley.canvas.com" ++ "/" ++ "21312" ++ "" : String)
      = "/api/ucberkeley.canvas.com/21312" := rfl
  have e2 : ("ucberkeley.canvas.com" ++ "_" ++ "21312" : String)
      = "ucberkeley.canvas.com_21312" := rfl
  rw [e1, e2] at h
  exact ⟨h, by decide⟩
